import Mathlib

/-!
Verification development for the AjvValidationPipe of this repository.

The repository ships the unit tests of the pipe (src/unnamed/part_001) and the
project configuration; the pipe implementation itself lives outside the
provided sources.  Following the spec (section 8, TESTABLE PROPERTIES) and the
literal expected outputs asserted by the tests, we build a shallow embedding of
the pipe: a JSON value model, an AJV-style schema validator producing
AJV-shaped error entries, schema generation from parameter metadata, and the
transform operation with its error-message formatting and sensitive-field
redaction.  Every definition that stands in for the missing implementation is
marked `Modelled from the spec:`.
-/

/-- JSON-ish runtime values, including the JavaScript undefined that the pipe
receives for absent query parameters. -/
inductive Json where
  | null : Json
  | undef : Json
  | bool (b : Bool) : Json
  | num (n : Int) : Json
  | str (s : String) : Json
  | arr (items : List Json) : Json
  | obj (fields : List (String × Json)) : Json

/-- A single quote character, used in validator messages and data paths. -/
def sQuote : String := "\x27"

/-- JSON string escaping for one character, as JSON.stringify does for the
characters appearing in this development. -/
def escapeChar (c : Char) : String :=
  if c = '"' then "\\\"" else if c = '\\' then "\\\\" else String.singleton c

/-- JSON string escaping. -/
def escapeString (s : String) : String :=
  String.join (s.toList.map escapeChar)

mutual

/-- Render a JSON value the way JSON.stringify does, used for the
`Given value:` part of the error message. -/
def stringify : Json → String
  | .null => "null"
  | .undef => "undefined"
  | .bool true => "true"
  | .bool false => "false"
  | .num n => toString n
  | .str s => "\"" ++ escapeString s ++ "\""
  | .arr items => "[" ++ stringifyList items ++ "]"
  | .obj fields => "\x7b" ++ stringifyFields fields ++ "\x7d"

/-- Comma-separated rendering of array elements. -/
def stringifyList : List Json → String
  | [] => ""
  | [x] => stringify x
  | x :: y :: xs => stringify x ++ "," ++ stringifyList (y :: xs)

/-- Comma-separated rendering of object fields. -/
def stringifyFields : List (String × Json) → String
  | [] => ""
  | [(k, v)] => "\"" ++ escapeString k ++ "\":" ++ stringify v
  | (k, v) :: f :: fs =>
      "\"" ++ escapeString k ++ "\":" ++ stringify v ++ "," ++ stringifyFields (f :: fs)

end

/-- One step inside a nested value: an object property, an array index, or a
map key. -/
inductive Seg where
  | prop (name : String) : Seg
  | idx (i : Nat) : Seg
  | key (k : String) : Seg
  deriving DecidableEq, Repr

/-- Render a path the way AJV renders dataPath: dots for properties, brackets
for indices and quoted keys. -/
def renderSeg : Seg → String
  | .prop n => "." ++ n
  | .idx i => "[" ++ toString i ++ "]"
  | .key k => "[" ++ sQuote ++ k ++ sQuote ++ "]"

/-- AJV-style dataPath of a structured path. -/
def renderDataPath (p : List Seg) : String :=
  String.join (p.map renderSeg)

/-- The name of the last object property on the path, i.e. the field on which
validation failed (used by the sensitive-field redaction). -/
def lastPropName : List Seg → Option String
  | [] => none
  | .prop n :: rest =>
      match lastPropName rest with
      | some m => some m
      | none => some n
  | _ :: rest => lastPropName rest

/-- An AJV-compatible validation error entry, as exposed by the pipe.
The dataPath is kept structured (field path) and rendered on exposure. -/
structure AjvError where
  keyword : String
  path : List Seg
  message : String
  params : Json
  parentSchema : Json
  schema : Json
  schemaPath : String
  data : Json
  modelName : Option String

/-- Look a field up in a JSON object field list. -/
def lookupField (fields : List (String × Json)) (n : String) : Option Json :=
  match fields.find? (fun kv => kv.1 == n) with
  | some kv => some kv.2
  | none => none

/-- Field access on a JSON object value. -/
def jsonField (j : Json) (k : String) : Option Json :=
  match j with
  | .obj fields => lookupField fields k
  | _ => none

/-- The keys of a JSON object value. -/
def Json.objKeys : Json → List String
  | .obj fields => fields.map (fun kv => kv.1)
  | _ => []

mutual

/-- Modelled from the spec: the declared type of a model property as recorded
by the decorator metadata that the missing AjvValidationPipe and getJsonSchema
consume: a string with an optional explicit MinLength, or a nested model. -/
inductive PropType where
  | strTy (minLength : Option Nat) : PropType
  | modelTy (m : ModelSpec) : PropType

/-- The declared properties of a model: each records its name, whether it is
Required, and its declared type. -/
inductive PropList where
  | nil : PropList
  | cons (name : String) (required : Bool) (ty : PropType) (rest : PropList) : PropList

/-- A model class: a name and its declared properties. -/
inductive ModelSpec where
  | mk (name : String) (props : PropList) : ModelSpec

end

/-- The class name of a model. -/
def ModelSpec.name : ModelSpec → String
  | .mk n _ => n

/-- The declared properties of a model. -/
def ModelSpec.props : ModelSpec → PropList
  | .mk _ ps => ps

/-- The property list as a plain list of triples. -/
def PropList.toList : PropList → List (String × Bool × PropType)
  | .nil => []
  | .cons n r t rest => (n, r, t) :: rest.toList

/-- The names of the Required properties, in declaration order. -/
def requiredNames : PropList → List String
  | .nil => []
  | .cons n true _ rest => n :: requiredNames rest
  | .cons _ false _ rest => requiredNames rest

/-- Modelled from the spec: the minLength constraint the schema generator puts
on a string property.  An explicit MinLength wins; otherwise a Required string
property gets minLength 1 (so an empty string fails), and an optional one gets
no constraint. -/
def effectiveMinLength (required : Bool) : Option Nat → Option Nat
  | some n => some n
  | none => if required then some 1 else none

/-- Modelled from the spec: the JSON schema generated for one declared
property. -/
def propTypeSchemaJson (required : Bool) : PropType → Json
  | .strTy minLen =>
      match effectiveMinLength required minLen with
      | some n => .obj [("minLength", .num (Int.ofNat n)), ("type", .str "string")]
      | none => .obj [("type", .str "string")]
  | .modelTy m => .obj [("$ref", .str ("#/definitions/" ++ m.name))]

/-- The properties object of a generated model schema. -/
def propsSchemaFields : PropList → List (String × Json)
  | .nil => []
  | .cons n r t rest => (n, propTypeSchemaJson r t) :: propsSchemaFields rest

/-- Modelled from the spec: the JSON schema generated for one model class
(properties, required list and type object; the required key is present only
when some property is Required). -/
def modelSchemaFields (m : ModelSpec) : List (String × Json) :=
  match requiredNames m.props with
  | [] => [("properties", .obj (propsSchemaFields m.props)), ("type", .str "object")]
  | reqs =>
      [("properties", .obj (propsSchemaFields m.props)),
       ("required", .arr (reqs.map .str)), ("type", .str "object")]

/-- The generated JSON schema of one model class. -/
def modelSchemaJson (m : ModelSpec) : Json :=
  .obj (modelSchemaFields m)

/-- A JSON-schema reference to a model held in the definitions object. -/
def refJson (m : ModelSpec) : Json :=
  .obj [("$ref", .str ("#/definitions/" ++ m.name))]

mutual

/-- The definitions entries contributed by the nested models of a property
list. -/
def collectDefsProps : PropList → List (String × Json)
  | .nil => []
  | .cons _ _ (.strTy _) rest => collectDefsProps rest
  | .cons _ _ (.modelTy m) rest => collectDefsModel m ++ collectDefsProps rest

/-- The definitions entries of a model: itself followed by its nested
models. -/
def collectDefsModel : ModelSpec → List (String × Json)
  | .mk n ps => (n, modelSchemaJson (.mk n ps)) :: collectDefsProps ps

end

/-- The primitive JSON types a raw schema can require. -/
inductive RawType where
  | objectT : RawType
  | arrayT : RawType
  | stringT : RawType
  | booleanT : RawType
  | numberT : RawType
  | nullT : RawType
  deriving DecidableEq, Repr

/-- The JSON-schema name of a primitive type. -/
def rawTypeName : RawType → String
  | .objectT => "object"
  | .arrayT => "array"
  | .stringT => "string"
  | .booleanT => "boolean"
  | .numberT => "number"
  | .nullT => "null"

/-- Whether a value has the given primitive JSON type. -/
def rawTypeMatches : RawType → Json → Bool
  | .objectT, .obj _ => true
  | .arrayT, .arr _ => true
  | .stringT, .str _ => true
  | .booleanT, .bool _ => true
  | .numberT, .num _ => true
  | .nullT, .null => true
  | _, _ => false

/-- Modelled from the spec: what a parameter is declared to hold, part of the
decorator metadata of the missing pipe.  A raw JSON schema (the Schema
decorator), a plain string, a boolean, or a model class. -/
inductive ParamTarget where
  | rawSchema (t : RawType) : ParamTarget
  | ofString : ParamTarget
  | ofBoolean : ParamTarget
  | model (m : ModelSpec) : ParamTarget

/-- Modelled from the spec: the declared container kind of a parameter:
a single value, an array, a Map, or a Set of the target type. -/
inductive CollectionKind where
  | one : CollectionKind
  | arrayOf : CollectionKind
  | mapOf : CollectionKind
  | setOf : CollectionKind
  deriving DecidableEq, Repr

/-- Modelled from the spec: the ParamMetadata of a controller argument as the
missing pipe sees it: the request path of the parameter (request.body and the
like), whether it comes from the query string, its container kind and its
target type. -/
structure ParamMetadata where
  paramPath : String
  isQuery : Bool
  collection : CollectionKind
  target : ParamTarget

/-- The model name of the target, when the target is a model. -/
def targetModelName : ParamTarget → Option String
  | .model m => some m.name
  | _ => none

/-- Modelled from the spec: the getJsonSchema output for one non-container
target. -/
def oneSchemaJson : ParamTarget → Json
  | .rawSchema t => .obj [("type", .str (rawTypeName t))]
  | .ofString => .obj [("type", .str "string")]
  | .ofBoolean => .obj [("type", .str "boolean")]
  | .model m =>
      match collectDefsProps m.props with
      | [] => modelSchemaJson m
      | defs => .obj (("definitions", .obj defs) :: modelSchemaFields m)

/-- Modelled from the spec: the getJsonSchema output for the whole parameter.
Model-typed containers put every reachable model into definitions and refer to
the element model by reference; a Map becomes an object schema whose
additionalProperties is that reference, a Set an array schema with uniqueItems
true, an array a plain array schema. -/
def paramSchemaJson (meta : ParamMetadata) : Json :=
  match meta.collection, meta.target with
  | .one, t => oneSchemaJson t
  | .arrayOf, .model m =>
      .obj [("definitions", .obj (collectDefsModel m)), ("items", refJson m),
            ("type", .str "array")]
  | .setOf, .model m =>
      .obj [("definitions", .obj (collectDefsModel m)), ("items", refJson m),
            ("type", .str "array"), ("uniqueItems", .bool true)]
  | .mapOf, .model m =>
      .obj [("additionalProperties", refJson m), ("definitions", .obj (collectDefsModel m)),
            ("type", .str "object")]
  | .arrayOf, t => .obj [("items", oneSchemaJson t), ("type", .str "array")]
  | .setOf, t =>
      .obj [("items", oneSchemaJson t), ("type", .str "array"), ("uniqueItems", .bool true)]
  | .mapOf, t => .obj [("additionalProperties", oneSchemaJson t), ("type", .str "object")]

/-- Modelled from the spec: an AJV type error entry. -/
def typeErr (t : RawType) (parent : Json) (sp : String) (v : Json)
    (mn : Option String) : AjvError :=
  { keyword := "type", path := [], message := "should be " ++ rawTypeName t,
    params := .obj [("type", .str (rawTypeName t))], parentSchema := parent,
    schema := .str (rawTypeName t), schemaPath := sp, data := v, modelName := mn }

/-- Modelled from the spec: an AJV missing-required-property error entry. -/
def requiredErr (missing : String) (reqList : List String) (parent : Json) (v : Json)
    (mn : Option String) : AjvError :=
  { keyword := "required", path := [],
    message := "should have required property " ++ sQuote ++ missing ++ sQuote,
    params := .obj [("missingProperty", .str missing)], parentSchema := parent,
    schema := .arr (reqList.map .str), schemaPath := "#/required", data := v,
    modelName := mn }

/-- Modelled from the spec: an AJV minLength error entry. -/
def minLengthErr (limit : Nat) (pname : String) (v : Json)
    (mn : Option String) : AjvError :=
  { keyword := "minLength", path := [],
    message := "should NOT have fewer than " ++ toString limit ++ " characters",
    params := .obj [("limit", .num (Int.ofNat limit))],
    parentSchema := .obj [("minLength", .num (Int.ofNat limit)), ("type", .str "string")],
    schema := .num (Int.ofNat limit),
    schemaPath := "#/properties/" ++ pname ++ "/minLength", data := v, modelName := mn }

/-- Modelled from the spec: validation of a value against a raw JSON schema
that requires a primitive type. -/
def validateRaw (t : RawType) (v : Json) : List AjvError :=
  if rawTypeMatches t v then []
  else [typeErr t (.obj [("type", .str (rawTypeName t))]) "#/type" v none]

/-- Modelled from the spec: validation of a plain string parameter. -/
def validateString (v : Json) : List AjvError :=
  match v with
  | .str _ => []
  | v => [typeErr .stringT (.obj [("type", .str "string")]) "#/type" v none]

/-- Modelled from the spec: validation of a boolean query parameter after
coercion; null and undefined pass, as the tests require. -/
def validateBoolean (v : Json) : List AjvError :=
  match v with
  | .bool _ => []
  | .null => []
  | .undef => []
  | v => [typeErr .booleanT (.obj [("type", .str "boolean")]) "#/type" v none]

/-- Prefix one path segment onto every error of a list. -/
def tagAll (s : Seg) (es : List AjvError) : List AjvError :=
  es.map fun e => { e with path := s :: e.path }

/-- The required errors of an object value against a model: one entry per
missing Required property, carrying the model name and the full model schema
as parent schema. -/
def missingReqErrs (modelName : String) (schemaJson : Json) (reqList : List String)
    (v : Json) (fields : List (String × Json)) : List AjvError :=
  (reqList.filter (fun r => (lookupField fields r).isNone)).map
    (fun r => requiredErr r reqList schemaJson v (some modelName))

mutual

/-- Modelled from the spec: validation of a value against a model schema, as
the external AJV validator does it.  A non-object fails with a type error;
an object yields one required error per missing Required property, then the
errors of each present declared property. -/
def validateModel : ModelSpec → Json → List AjvError
  | .mk name props, .obj fields =>
      missingReqErrs name (modelSchemaJson (.mk name props)) (requiredNames props)
        (.obj fields) fields ++ validateProps name props fields
  | .mk name props, v =>
      [typeErr .objectT (modelSchemaJson (.mk name props)) "#/type" v (some name)]

/-- Validation of the present declared properties of an object. -/
def validateProps (modelName : String) : PropList → List (String × Json) → List AjvError
  | .nil, _ => []
  | .cons n r t rest, fields =>
      (match lookupField fields n with
       | some fv => tagAll (.prop n) (validatePropVal modelName n r t fv)
       | none => []) ++ validateProps modelName rest fields

/-- Validation of one present property value against its declared type. -/
def validatePropVal (modelName : String) (pname : String) (required : Bool) :
    PropType → Json → List AjvError
  | .strTy ml, .str s =>
      (match effectiveMinLength required ml with
       | some lim =>
           if s.length < lim then [minLengthErr lim pname (.str s) (some modelName)]
           else []
       | none => [])
  | .strTy ml, fv =>
      [typeErr .stringT (propTypeSchemaJson required (.strTy ml))
        ("#/properties/" ++ pname ++ "/type") fv (some modelName)]
  | .modelTy m2, fv => validateModel m2 fv

end

/-- Modelled from the spec: validation of one value against a non-container
target. -/
def validateOne (t : ParamTarget) (v : Json) : List AjvError :=
  match t with
  | .rawSchema rt => validateRaw rt v
  | .ofString => validateString v
  | .ofBoolean => validateBoolean v
  | .model m => validateModel m v

/-- Validation of the enumerated elements of an array or Set value. -/
def validateItems (t : ParamTarget) : List (Nat × Json) → List AjvError
  | [] => []
  | (i, it) :: rest => tagAll (.idx i) (validateOne t it) ++ validateItems t rest

/-- Validation of the entries of a Map value given as a plain object. -/
def validateEntries (t : ParamTarget) : List (String × Json) → List AjvError
  | [] => []
  | (k, fv) :: rest => tagAll (.key k) (validateOne t fv) ++ validateEntries t rest

/-- Modelled from the spec: validation of a parameter value against its
metadata.  Map-typed parameters take a plain string-keyed object and validate
each entry through the element target; array- and Set-typed parameters take a
plain array and validate each element; errors coming out of an entry or
element are tagged with the key or index where they occurred. -/
def validateParam (meta : ParamMetadata) (v : Json) : List AjvError :=
  match meta.collection with
  | .one => validateOne meta.target v
  | .arrayOf | .setOf =>
      match v with
      | .arr items => validateItems meta.target items.enum
      | v => [typeErr .arrayT (paramSchemaJson meta) "#/type" v (targetModelName meta.target)]
  | .mapOf =>
      match v with
      | .obj fields => validateEntries meta.target fields
      | v => [typeErr .objectT (paramSchemaJson meta) "#/type" v (targetModelName meta.target)]

/-- Modelled from the spec: the pipe coerces boolean query parameters before
validating: the literal strings true and false become booleans, the literal
string null becomes null, and anything else, undefined included, is left
unchanged. -/
def coerceQueryBoolean : Json → Json
  | .str "true" => .bool true
  | .str "false" => .bool false
  | .str "null" => .null
  | v => v

/-- Whether the metadata asks for query-boolean coercion. -/
def shouldCoerceBoolean (meta : ParamMetadata) : Bool :=
  meta.isQuery &&
    (match meta.target with
     | .ofBoolean => true
     | _ => false)

/-- The value the pipe actually validates: the input after any query-boolean
coercion. -/
def inputValue (meta : ParamMetadata) (v : Json) : Json :=
  if shouldCoerceBoolean meta then coerceQueryBoolean v else v

/-- Rendering of the property chain of an error path for the human-readable
message: a dot-separated chain of property names (indices and keys deeper in
the path keep their bracket form). -/
def renderPropsPath : List Seg → String
  | [] => ""
  | .prop n :: rest => "." ++ n ++ renderPropsPath rest
  | .idx i :: rest => "[" ++ toString i ++ "]" ++ renderPropsPath rest
  | .key k :: rest => "[" ++ sQuote ++ k ++ sQuote ++ "]" ++ renderPropsPath rest

/-- Modelled from the spec: the qualified path of one validation failure.
For a model target it starts from the model name, with the array form
Model[index], the Set form Set<index, Model> and the Map form Map<key, Model>
for container element failures, followed by the dot-separated property chain;
a raw-schema target starts from the word Value. -/
def qualifiedPath (meta : ParamMetadata) (e : AjvError) : String :=
  match meta.target with
  | .model m =>
      (match meta.collection, e.path with
       | .arrayOf, .idx i :: p => m.name ++ "[" ++ toString i ++ "]" ++ renderPropsPath p
       | .setOf, .idx i :: p =>
           "Set<" ++ toString i ++ ", " ++ m.name ++ ">" ++ renderPropsPath p
       | .mapOf, .key k :: p =>
           "Map<" ++ k ++ ", " ++ m.name ++ ">" ++ renderPropsPath p
       | _, p => m.name ++ renderPropsPath p)
  | _ => "Value" ++ renderPropsPath e.path

/-- The literal replacement put in place of a sensitive data value. -/
def redactedValue : Json := .str "[REDACTED]"

/-- Whether an error hit a field whose name is in the configured sensitive
set. -/
def isSensitive (sensitive : List String) (e : AjvError) : Bool :=
  match lastPropName e.path with
  | some n => sensitive.contains n
  | none => false

/-- Modelled from the spec: redaction of one error entry: when the failing
field name belongs to the configured sensitive set, the data value is replaced
by the literal string [REDACTED]; every other field of the entry is kept. -/
def redactErr (sensitive : List String) (e : AjvError) : AjvError :=
  if isSensitive sensitive e then { e with data := redactedValue } else e

/-- Modelled from the spec: the structured error the pipe raises: a message
and the validator error list after redaction. -/
structure PipeValidationError where
  message : String
  errors : List AjvError

/-- The second line of the raised message, built from the first validator
error. -/
def errorHeadline (meta : ParamMetadata) (e : AjvError) : String :=
  qualifiedPath meta e ++ " " ++ e.message ++ ". Given value: " ++ stringify e.data

/-- Modelled from the spec: the structured error built from the validator
errors of a failed parameter. -/
def mkValidationError (sensitive : List String) (meta : ParamMetadata)
    (errs : List AjvError) : PipeValidationError :=
  { message :=
      "Bad request on parameter \"" ++ meta.paramPath ++ "\".\n" ++
        (match errs with
         | e :: _ => errorHeadline meta e
         | [] => ""),
    errors := errs.map (redactErr sensitive) }

/-- Modelled from the spec: the transform operation of the missing
AjvValidationPipe.  It coerces boolean query values, validates the result
against the schema derived from the metadata, returns the validated value
unchanged on success, and raises the structured error on failure. -/
def transform (sensitive : List String) (meta : ParamMetadata) (v : Json) :
    Except PipeValidationError Json :=
  match validateParam meta (inputValue meta v) with
  | [] => .ok (inputValue meta v)
  | e :: es => .error (mkValidationError sensitive meta (e :: es))

/-- The sensitive field set the pipe is configured with by default. -/
def defaultSensitiveFields : List String := ["password"]

/-- The JSON object shape in which one error entry is exposed, as the tests
observe it: the AJV fields plus the modelName field when present. -/
def exposedErrorJson (e : AjvError) : Json :=
  .obj
    ([("data", e.data), ("dataPath", .str (renderDataPath e.path)),
      ("keyword", .str e.keyword), ("message", .str e.message)] ++
      (match e.modelName with
       | some n => [("modelName", .str n)]
       | none => []) ++
      [("params", e.params), ("parentSchema", e.parentSchema), ("schema", e.schema),
       ("schemaPath", .str e.schemaPath)])

/-- The message of a transform outcome, empty on success. -/
def resultMessage : Except PipeValidationError Json → String
  | .error e => e.message
  | .ok _ => ""

/-- The test model with a single Required string property id. -/
def modelId : ModelSpec := .mk "Model" (.cons "id" true (.strTy none) .nil)

/-- The test model UserModel with a single Required string property id. -/
def userModel : ModelSpec := .mk "UserModel" (.cons "id" true (.strTy none) .nil)

/-- The test model with Required id and a Required nested UserModel
property user. -/
def modelWithUser : ModelSpec :=
  .mk "Model" (.cons "id" true (.strTy none) (.cons "user" true (.modelTy userModel) .nil))

/-- The test model with Required id and a Required password with
MinLength 8. -/
def modelWithPassword : ModelSpec :=
  .mk "Model" (.cons "id" true (.strTy none) (.cons "password" true (.strTy (some 8)) .nil))

/-- Body-parameter metadata with the request.body path of the tests. -/
def bodyMeta (c : CollectionKind) (t : ParamTarget) : ParamMetadata :=
  { paramPath := "request.body", isQuery := false, collection := c, target := t }

/-- The query-boolean metadata of the QueryParams test. -/
def queryBoolMeta : ParamMetadata :=
  { paramPath := "request.query.test", isQuery := true, collection := .one,
    target := .ofBoolean }

/-- Whether a target is schema-validated without coercion: a raw JSON schema
or a model (of which array, Map and Set parameters hold collections). -/
def isSchemaTarget : ParamTarget → Bool
  | .rawSchema _ => true
  | .model _ => true
  | _ => false

/-- Claim C1: for every input value that matches the JSON schema declared by
the parameter metadata, the transform operation returns the input unchanged,
for raw-schema, model, array-of-model, Map-of-model and Set-of-model
parameters alike. -/
theorem transform_valid_is_identity (sensitive : List String) (meta : ParamMetadata)
    (v : Json) (hTarget : isSchemaTarget meta.target = true)
    (hValid : validateParam meta v = []) :
    transform sensitive meta v = .ok v := by
  obtain ⟨pp, isQ, coll, tgt⟩ := meta
  have hi : inputValue ⟨pp, isQ, coll, tgt⟩ v = v := by
    cases tgt <;> simp_all [isSchemaTarget, inputValue, shouldCoerceBoolean]
  unfold transform
  rw [hi, hValid]

/-- Witness for C1: the empty object is valid for the raw object-schema body
parameter of the tests and comes back unchanged. -/
theorem transform_valid_is_identity_witness :
    isSchemaTarget (bodyMeta .one (.rawSchema .objectT)).target = true ∧
    validateParam (bodyMeta .one (.rawSchema .objectT)) (.obj []) = [] ∧
    transform defaultSensitiveFields (bodyMeta .one (.rawSchema .objectT)) (.obj []) =
      .ok (.obj []) :=
  ⟨rfl, rfl, transform_valid_is_identity defaultSensitiveFields _ _ rfl rfl⟩

/-- Claim C2: for every input that fails validation, the pipe raises a
structured error whose message is exactly the Bad request line for the
parameter path, a newline, then the qualified path, a space, the validator
message, then the Given value prefix and the JSON rendering of the offending
value. -/
theorem transform_error_message_format (sensitive : List String)
    (meta : ParamMetadata) (v : Json) (e : AjvError) (es : List AjvError)
    (h : validateParam meta (inputValue meta v) = e :: es) :
    transform sensitive meta v = .error (mkValidationError sensitive meta (e :: es)) ∧
    (mkValidationError sensitive meta (e :: es)).message =
      "Bad request on parameter \"" ++ meta.paramPath ++ "\".\n" ++
        qualifiedPath meta e ++ " " ++ e.message ++ ". Given value: " ++
        stringify e.data := by
  constructor
  · unfold transform
    rw [h]
  · simp [mkValidationError, errorHeadline, String.append_assoc]

/-- Witness for C2: the raw object-schema body parameter rejects the empty
array with the exact message asserted by the tests. -/
theorem transform_error_message_format_witness :
    validateParam (bodyMeta .one (.rawSchema .objectT))
        (inputValue (bodyMeta .one (.rawSchema .objectT)) (.arr [])) =
      [typeErr .objectT (.obj [("type", .str "object")]) "#/type" (.arr []) none] ∧
    (mkValidationError defaultSensitiveFields (bodyMeta .one (.rawSchema .objectT))
        [typeErr .objectT (.obj [("type", .str "object")]) "#/type" (.arr []) none]).message =
      "Bad request on parameter \"request.body\".\nValue should be object. Given value: []" := by
  refine ⟨rfl, ?_⟩
  have h := (transform_error_message_format defaultSensitiveFields
    (bodyMeta .one (.rawSchema .objectT)) (.arr [])
    (typeErr .objectT (.obj [("type", .str "object")]) "#/type" (.arr []) none) [] rfl).2
  rw [h]
  rfl

/-- Claim C6: for a boolean-typed query parameter the pipe coerces the literal
strings true and false to booleans, the literal string null to null, leaves
undefined unchanged, and does so before validating, then returns the coerced
value. -/
theorem queryBoolean_coercion (sensitive : List String) (pp : String) :
    (∀ v, inputValue ⟨pp, true, .one, .ofBoolean⟩ v = coerceQueryBoolean v) ∧
    transform sensitive ⟨pp, true, .one, .ofBoolean⟩ (.str "true") = .ok (.bool true) ∧
    transform sensitive ⟨pp, true, .one, .ofBoolean⟩ (.str "false") = .ok (.bool false) ∧
    transform sensitive ⟨pp, true, .one, .ofBoolean⟩ (.str "null") = .ok .null ∧
    transform sensitive ⟨pp, true, .one, .ofBoolean⟩ .undef = .ok .undef :=
  ⟨fun _ => rfl, rfl, rfl, rfl, rfl⟩

/-- The body of the password test: a valid id and a six-character password. -/
def pwValue : Json := .obj [("id", .str "id"), ("password", .str "secret")]

/-- The raw validator error the password test produces before redaction. -/
def pwRawErr : AjvError :=
  { minLengthErr 8 "password" (.str "secret") (some "Model") with
      path := [Seg.prop "password"] }

/-- Claim C3: the structured error exposes the validator error list verbatim,
except that an entry whose failing field name is in the configured sensitive
set has its data replaced by the literal string [REDACTED]; every other field
of every entry is preserved unchanged. -/
theorem transform_error_redaction (sensitive : List String) (meta : ParamMetadata)
    (v : Json) (e : AjvError) (es : List AjvError)
    (h : validateParam meta (inputValue meta v) = e :: es) :
    transform sensitive meta v = .error (mkValidationError sensitive meta (e :: es)) ∧
    (mkValidationError sensitive meta (e :: es)).errors =
      (e :: es).map (redactErr sensitive) ∧
    ∀ a : AjvError,
      (redactErr sensitive a).keyword = a.keyword ∧
      (redactErr sensitive a).path = a.path ∧
      (redactErr sensitive a).message = a.message ∧
      (redactErr sensitive a).params = a.params ∧
      (redactErr sensitive a).parentSchema = a.parentSchema ∧
      (redactErr sensitive a).schema = a.schema ∧
      (redactErr sensitive a).schemaPath = a.schemaPath ∧
      (redactErr sensitive a).modelName = a.modelName ∧
      (redactErr sensitive a).data =
        (if isSensitive sensitive a then redactedValue else a.data) := by
  refine ⟨?_, rfl, ?_⟩
  · unfold transform
    rw [h]
  · intro a
    unfold redactErr
    by_cases hs : isSensitive sensitive a = true <;> simp [hs]

/-- Witness for C3: on the password test input the pipe redacts the data of
the password entry while keeping its message. -/
theorem transform_error_redaction_witness :
    validateParam (bodyMeta .one (.model modelWithPassword))
        (inputValue (bodyMeta .one (.model modelWithPassword)) pwValue) = [pwRawErr] ∧
    (mkValidationError defaultSensitiveFields (bodyMeta .one (.model modelWithPassword))
        [pwRawErr]).errors = [redactErr defaultSensitiveFields pwRawErr] ∧
    (redactErr defaultSensitiveFields pwRawErr).data = redactedValue ∧
    (redactErr defaultSensitiveFields pwRawErr).message = pwRawErr.message := by
  have h := transform_error_redaction defaultSensitiveFields
    (bodyMeta .one (.model modelWithPassword)) pwValue pwRawErr [] rfl
  refine ⟨rfl, ?_, ?_, (h.2.2 pwRawErr).2.2.1⟩
  · rw [h.2.1]
    rfl
  · have hd := (h.2.2 pwRawErr).2.2.2.2.2.2.2.2
    rw [hd]
    rfl

/-- A Map-entry required error of the tests: the Model entry under key1 is
missing its id. -/
def keyReqErr : AjvError :=
  { requiredErr "id" ["id"] (modelSchemaJson modelId) (.obj []) (some "Model") with
      path := [Seg.key "key1"] }

/-- An element required error of the tests: the Model at index 0 is missing
its id. -/
def idxReqErr : AjvError :=
  { requiredErr "id" ["id"] (modelSchemaJson modelId) (.obj []) (some "Model") with
      path := [Seg.idx 0] }

/-- Claim C4: the failure path of a container-typed parameter is formatted by
container kind: Map<key, Model> for a map entry, Set<index, Model> for a set
element, Model[index] for an array element. -/
theorem qualifiedPath_container_format (m : ModelSpec) (meta : ParamMetadata)
    (e : AjvError) (hT : meta.target = .model m) :
    (meta.collection = .mapOf → ∀ k p, e.path = .key k :: p →
      qualifiedPath meta e = "Map<" ++ k ++ ", " ++ m.name ++ ">" ++ renderPropsPath p) ∧
    (meta.collection = .setOf → ∀ i p, e.path = .idx i :: p →
      qualifiedPath meta e =
        "Set<" ++ toString i ++ ", " ++ m.name ++ ">" ++ renderPropsPath p) ∧
    (meta.collection = .arrayOf → ∀ i p, e.path = .idx i :: p →
      qualifiedPath meta e =
        m.name ++ "[" ++ toString i ++ "]" ++ renderPropsPath p) := by
  refine ⟨?_, ?_, ?_⟩ <;> intro hc j p hp <;>
    simp [qualifiedPath, hT, hc, hp, String.append_assoc]

/-- Witness for C4: the three container formats on the concrete errors of the
tests. -/
theorem qualifiedPath_container_format_witness :
    qualifiedPath (bodyMeta .mapOf (.model modelId)) keyReqErr = "Map<key1, Model>" ∧
    qualifiedPath (bodyMeta .setOf (.model modelId)) idxReqErr = "Set<0, Model>" ∧
    qualifiedPath (bodyMeta .arrayOf (.model modelId)) idxReqErr = "Model[0]" := by
  refine ⟨?_, ?_, ?_⟩
  · have h := (qualifiedPath_container_format modelId (bodyMeta .mapOf (.model modelId))
      keyReqErr rfl).1 rfl "key1" [] rfl
    rw [h]
    rfl
  · have h := (qualifiedPath_container_format modelId (bodyMeta .setOf (.model modelId))
      idxReqErr rfl).2.1 rfl 0 [] rfl
    rw [h]
    rfl
  · have h := (qualifiedPath_container_format modelId (bodyMeta .arrayOf (.model modelId))
      idxReqErr rfl).2.2 rfl 0 [] rfl
    rw [h]
    rfl

/-- Counterexample to C5 as stated: on the Set-of-model test input the
qualified path in the message is Set<0, Model>, not the model name suffixed
with the index as the claim predicts for set element failures. -/
theorem setFailure_path_not_indexed_model :
    resultMessage (transform defaultSensitiveFields (bodyMeta .setOf (.model modelId))
        (.arr [.obj []])) =
      "Bad request on parameter \"request.body\".\nSet<0, Model> should have required property \x27id\x27. Given value: \x7b\x7d" ∧
    ("Bad request on parameter \"request.body\".\nSet<0, Model> should have required property \x27id\x27. Given value: \x7b\x7d" : String) ≠
      "Bad request on parameter \"request.body\".\nModel[0] should have required property \x27id\x27. Given value: \x7b\x7d" :=
  ⟨rfl, by decide⟩

/-- Claim C5 (amended): for every validation failure on a model-typed
parameter the qualified path starts from the model name for direct failures
and array element failures (Model, Model[index]), from Set<index, ModelName>
for set element failures, and from Map<key, ModelName> for map-keyed
failures, followed by the dot-separated chain of nested property names down
to the failing field. -/
theorem qualifiedPath_model_shape (m : ModelSpec) (meta : ParamMetadata)
    (e : AjvError) (hT : meta.target = .model m) :
    (∀ n p, renderPropsPath (.prop n :: p) = "." ++ n ++ renderPropsPath p) ∧
    (meta.collection = .one →
      qualifiedPath meta e = m.name ++ renderPropsPath e.path) ∧
    (meta.collection = .arrayOf → ∀ i p, e.path = .idx i :: p →
      qualifiedPath meta e = m.name ++ "[" ++ toString i ++ "]" ++ renderPropsPath p) ∧
    (meta.collection = .setOf → ∀ i p, e.path = .idx i :: p →
      qualifiedPath meta e =
        "Set<" ++ toString i ++ ", " ++ m.name ++ ">" ++ renderPropsPath p) ∧
    (meta.collection = .mapOf → ∀ k p, e.path = .key k :: p →
      qualifiedPath meta e =
        "Map<" ++ k ++ ", " ++ m.name ++ ">" ++ renderPropsPath p) := by
  refine ⟨fun n p => rfl, ?_, ?_, ?_, ?_⟩
  · intro hc
    simp [qualifiedPath, hT, hc, String.append_assoc]
  all_goals intro hc j p hp
  all_goals simp [qualifiedPath, hT, hc, hp, String.append_assoc]

/-- The deep required error of the nested-model tests: the user object is
missing its id; the path below starts at the failing container position. -/
def deepUserErr (head : List Seg) : AjvError :=
  { requiredErr "id" ["id"] (modelSchemaJson userModel) (.obj []) (some "UserModel") with
      path := head ++ [Seg.prop "user"] }

/-- Witness for the amended C5: the deep qualified paths of the tests,
Model.user, Model[0].user, Set<0, Model>.user and Map<key1, Model>.user. -/
theorem qualifiedPath_model_shape_witness :
    qualifiedPath (bodyMeta .one (.model modelWithUser)) (deepUserErr []) =
      "Model.user" ∧
    qualifiedPath (bodyMeta .arrayOf (.model modelWithUser)) (deepUserErr [.idx 0]) =
      "Model[0].user" ∧
    qualifiedPath (bodyMeta .setOf (.model modelWithUser)) (deepUserErr [.idx 0]) =
      "Set<0, Model>.user" ∧
    qualifiedPath (bodyMeta .mapOf (.model modelWithUser)) (deepUserErr [.key "key1"]) =
      "Map<key1, Model>.user" := by
  refine ⟨?_, ?_, ?_, ?_⟩
  · have h := (qualifiedPath_model_shape modelWithUser
      (bodyMeta .one (.model modelWithUser)) (deepUserErr []) rfl).2.1 rfl
    rw [h]
    rfl
  · have h := (qualifiedPath_model_shape modelWithUser
      (bodyMeta .arrayOf (.model modelWithUser)) (deepUserErr [.idx 0]) rfl).2.2.1 rfl
      0 [Seg.prop "user"] rfl
    rw [h]
    rfl
  · have h := (qualifiedPath_model_shape modelWithUser
      (bodyMeta .setOf (.model modelWithUser)) (deepUserErr [.idx 0]) rfl).2.2.2.1 rfl
      0 [Seg.prop "user"] rfl
    rw [h]
    rfl
  · have h := (qualifiedPath_model_shape modelWithUser
      (bodyMeta .mapOf (.model modelWithUser)) (deepUserErr [.key "key1"]) rfl).2.2.2.2 rfl
      "key1" [Seg.prop "user"] rfl
    rw [h]
    rfl

/-- The raw-schema type error of the first failing test. -/
def rawSchemaErr : AjvError :=
  typeErr .objectT (.obj [("type", .str "object")]) "#/type" (.arr []) none

/-- Claim C7: every entry of the error list exposed by the structured
validation error carries the AJV-compatible fields keyword, dataPath, params,
schema and message. -/
theorem exposed_error_ajv_fields (sensitive : List String) (meta : ParamMetadata)
    (v : Json) (err : PipeValidationError)
    (_h : transform sensitive meta v = .error err) :
    ∀ e ∈ err.errors,
      "keyword" ∈ (exposedErrorJson e).objKeys ∧
      "dataPath" ∈ (exposedErrorJson e).objKeys ∧
      "params" ∈ (exposedErrorJson e).objKeys ∧
      "schema" ∈ (exposedErrorJson e).objKeys ∧
      "message" ∈ (exposedErrorJson e).objKeys := by
  intro e _
  cases hm : e.modelName <;> simp [exposedErrorJson, Json.objKeys, hm]

/-- Witness for C7: the raw-schema failure of the tests carries the five AJV
fields on its single exposed entry. -/
theorem exposed_error_ajv_fields_witness :
    transform defaultSensitiveFields (bodyMeta .one (.rawSchema .objectT)) (.arr []) =
      .error (mkValidationError defaultSensitiveFields
        (bodyMeta .one (.rawSchema .objectT)) [rawSchemaErr]) ∧
    "keyword" ∈
      (exposedErrorJson (redactErr defaultSensitiveFields rawSchemaErr)).objKeys ∧
    "dataPath" ∈
      (exposedErrorJson (redactErr defaultSensitiveFields rawSchemaErr)).objKeys := by
  refine ⟨rfl, ?_, ?_⟩
  · exact (exposed_error_ajv_fields defaultSensitiveFields
      (bodyMeta .one (.rawSchema .objectT)) (.arr []) _ rfl
      (redactErr defaultSensitiveFields rawSchemaErr) (List.mem_singleton_self _)).1
  · exact (exposed_error_ajv_fields defaultSensitiveFields
      (bodyMeta .one (.rawSchema .objectT)) (.arr []) _ rfl
      (redactErr defaultSensitiveFields rawSchemaErr) (List.mem_singleton_self _)).2.1

/-- Redaction never touches the modelName field. -/
theorem redactErr_modelName (s : List String) (e : AjvError) :
    (redactErr s e).modelName = e.modelName := by
  unfold redactErr
  split <;> rfl

/-- An error of a tagged list is an original error with one more path
segment; its modelName is unchanged. -/
theorem mem_tagAll_modelName (s : Seg) (es : List AjvError) (e : AjvError)
    (h : e ∈ tagAll s es) : ∃ a ∈ es, e.modelName = a.modelName := by
  simp only [tagAll, List.mem_map] at h
  obtain ⟨a, ha, rfl⟩ := h
  exact ⟨a, ha, rfl⟩

mutual

/-- Every error the model validator produces names a model. -/
theorem validateModel_modelName_isSome :
    ∀ (m : ModelSpec) (v : Json), ∀ e ∈ validateModel m v, e.modelName.isSome = true
  | .mk name props, .obj fields => by
      intro e he
      rcases List.mem_append.mp he with h1 | h2
      · simp only [missingReqErrs, List.mem_map] at h1
        obtain ⟨r, _, rfl⟩ := h1
        rfl
      · exact validateProps_modelName_isSome name props fields e h2
  | .mk name props, .null => fun e he => by rw [List.eq_of_mem_singleton he]; rfl
  | .mk name props, .undef => fun e he => by rw [List.eq_of_mem_singleton he]; rfl
  | .mk name props, .bool b => fun e he => by rw [List.eq_of_mem_singleton he]; rfl
  | .mk name props, .num n => fun e he => by rw [List.eq_of_mem_singleton he]; rfl
  | .mk name props, .str s => fun e he => by rw [List.eq_of_mem_singleton he]; rfl
  | .mk name props, .arr l => fun e he => by rw [List.eq_of_mem_singleton he]; rfl

/-- Every error of the declared-property validation names a model. -/
theorem validateProps_modelName_isSome :
    ∀ (mn : String) (ps : PropList) (fields : List (String × Json)),
      ∀ e ∈ validateProps mn ps fields, e.modelName.isSome = true
  | mn, .nil, fields => by
      intro e he
      simp [validateProps] at he
  | mn, .cons n r t rest, fields => by
      intro e he
      rcases List.mem_append.mp he with h1 | h2
      · cases hl : lookupField fields n with
        | some fv =>
            rw [hl] at h1
            obtain ⟨a, ha, hme⟩ := mem_tagAll_modelName (.prop n) _ e h1
            rw [hme]
            exact validatePropVal_modelName_isSome mn n r t fv a ha
        | none =>
            rw [hl] at h1
            simp at h1
      · exact validateProps_modelName_isSome mn rest fields e h2

/-- Every error of one property validation names a model. -/
theorem validatePropVal_modelName_isSome :
    ∀ (mn pn : String) (r : Bool) (t : PropType) (fv : Json),
      ∀ e ∈ validatePropVal mn pn r t fv, e.modelName.isSome = true
  | mn, pn, r, .strTy ml, .str s => by
      intro e he
      cases hml : effectiveMinLength r ml with
      | some lim =>
          by_cases hlt : s.length < lim
          · simp only [validatePropVal, hml, hlt, if_true] at he
            rw [List.eq_of_mem_singleton he]
            rfl
          · simp [validatePropVal, hml, hlt] at he
      | none => simp [validatePropVal, hml] at he
  | mn, pn, r, .strTy ml, .null => fun e he => by rw [List.eq_of_mem_singleton he]; rfl
  | mn, pn, r, .strTy ml, .undef => fun e he => by rw [List.eq_of_mem_singleton he]; rfl
  | mn, pn, r, .strTy ml, .bool b => fun e he => by rw [List.eq_of_mem_singleton he]; rfl
  | mn, pn, r, .strTy ml, .num k => fun e he => by rw [List.eq_of_mem_singleton he]; rfl
  | mn, pn, r, .strTy ml, .arr l => fun e he => by rw [List.eq_of_mem_singleton he]; rfl
  | mn, pn, r, .strTy ml, .obj fs => fun e he => by rw [List.eq_of_mem_singleton he]; rfl
  | mn, pn, r, .modelTy m2, fv => fun e he => validateModel_modelName_isSome m2 fv e he

end

/-- No raw-schema validation error names a model. -/
theorem validateRaw_modelName_none (t : RawType) (v : Json) :
    ∀ e ∈ validateRaw t v, e.modelName = none := by
  intro e he
  unfold validateRaw at he
  by_cases h : rawTypeMatches t v = true
  · simp [h] at he
  · simp only [h, if_false, Bool.false_eq_true] at he
    rw [List.eq_of_mem_singleton he]
    rfl

/-- Propagation of a modelName property through element validation of arrays
and Sets. -/
theorem validateItems_modelName (P : Option String → Prop) (t : ParamTarget)
    (H : ∀ v e, e ∈ validateOne t v → P e.modelName) :
    ∀ (l : List (Nat × Json)), ∀ e ∈ validateItems t l, P e.modelName := by
  intro l
  induction l with
  | nil =>
      intro e he
      simp [validateItems] at he
  | cons p rest ih =>
      intro e he
      obtain ⟨i, it⟩ := p
      rcases List.mem_append.mp he with h1 | h2
      · obtain ⟨a, ha, hme⟩ := mem_tagAll_modelName (.idx i) _ e h1
        rw [hme]
        exact H it a ha
      · exact ih e h2

/-- Propagation of a modelName property through entry validation of Maps. -/
theorem validateEntries_modelName (P : Option String → Prop) (t : ParamTarget)
    (H : ∀ v e, e ∈ validateOne t v → P e.modelName) :
    ∀ (l : List (String × Json)), ∀ e ∈ validateEntries t l, P e.modelName := by
  intro l
  induction l with
  | nil =>
      intro e he
      simp [validateEntries] at he
  | cons p rest ih =>
      intro e he
      obtain ⟨k, fv⟩ := p
      rcases List.mem_append.mp he with h1 | h2
      · obtain ⟨a, ha, hme⟩ := mem_tagAll_modelName (.key k) _ e h1
        rw [hme]
        exact H fv a ha
      · exact ih e h2

/-- Propagation of a modelName property through whole-parameter validation:
every produced error either comes out of the element target validation or is
the container type error carrying the target model name. -/
theorem validateParam_modelName (P : Option String → Prop) (meta : ParamMetadata)
    (v : Json) (Hone : ∀ w e, e ∈ validateOne meta.target w → P e.modelName)
    (Htm : P (targetModelName meta.target)) :
    ∀ e ∈ validateParam meta v, P e.modelName := by
  intro e he
  unfold validateParam at he
  cases hc : meta.collection
  all_goals rw [hc] at he
  case one => exact Hone v e he
  case arrayOf =>
    cases v with
    | arr items => exact validateItems_modelName P meta.target Hone items.enum e he
    | _ =>
        rw [List.eq_of_mem_singleton he]
        exact Htm
  case setOf =>
    cases v with
    | arr items => exact validateItems_modelName P meta.target Hone items.enum e he
    | _ =>
        rw [List.eq_of_mem_singleton he]
        exact Htm
  case mapOf =>
    cases v with
    | obj fields => exact validateEntries_modelName P meta.target Hone fields e he
    | _ =>
        rw [List.eq_of_mem_singleton he]
        exact Htm

/-- A transform failure exposes exactly the redacted validator errors of the
coerced input. -/
theorem transform_error_eq (sensitive : List String) (meta : ParamMetadata)
    (v : Json) (err : PipeValidationError)
    (h : transform sensitive meta v = .error err) :
    ∃ e es, validateParam meta (inputValue meta v) = e :: es ∧
      err = mkValidationError sensitive meta (e :: es) := by
  unfold transform at h
  cases hv : validateParam meta (inputValue meta v) with
  | nil =>
      rw [hv] at h
      simp at h
  | cons e0 es =>
      rw [hv] at h
      simp only [Except.error.injEq] at h
      exact ⟨e0, es, rfl, h.symm⟩

/-- Claim C8: on a model-typed parameter every exposed error entry carries a
modelName key; on a raw-json-schema parameter no exposed entry carries one. -/
theorem exposed_error_modelName (sensitive : List String) (meta : ParamMetadata)
    (v : Json) (err : PipeValidationError)
    (h : transform sensitive meta v = .error err) :
    (∀ m, meta.target = .model m →
      ∀ e ∈ err.errors, "modelName" ∈ (exposedErrorJson e).objKeys) ∧
    (∀ t, meta.target = .rawSchema t →
      ∀ e ∈ err.errors, "modelName" ∉ (exposedErrorJson e).objKeys) := by
  obtain ⟨e0, es, hv, herr⟩ := transform_error_eq sensitive meta v err h
  subst herr
  constructor
  · intro m hT e he
    simp only [mkValidationError, List.mem_map] at he
    obtain ⟨a, ha, rfl⟩ := he
    have ha2 : a ∈ validateParam meta (inputValue meta v) := by
      rw [hv]
      exact ha
    have hsome : a.modelName.isSome = true := by
      refine validateParam_modelName (fun o => o.isSome = true) meta _ ?_ ?_ a ha2
      · intro w e2 he2
        rw [hT] at he2
        exact validateModel_modelName_isSome m w e2 he2
      · rw [hT]
        rfl
    obtain ⟨n, hn⟩ := Option.isSome_iff_exists.mp hsome
    have hrn : (redactErr sensitive a).modelName = some n := by
      rw [redactErr_modelName, hn]
    simp [exposedErrorJson, Json.objKeys, hrn]
  · intro t hT e he
    simp only [mkValidationError, List.mem_map] at he
    obtain ⟨a, ha, rfl⟩ := he
    have ha2 : a ∈ validateParam meta (inputValue meta v) := by
      rw [hv]
      exact ha
    have hnone : a.modelName = none := by
      refine validateParam_modelName (fun o => o = none) meta _ ?_ ?_ a ha2
      · intro w e2 he2
        rw [hT] at he2
        exact validateRaw_modelName_none t w e2 he2
      · rw [hT]
        rfl
    have hrn : (redactErr sensitive a).modelName = none := by
      rw [redactErr_modelName, hnone]
    simp [exposedErrorJson, Json.objKeys, hrn]

/-- The required error of the model test: the body misses its Required id. -/
def modelReqErr : AjvError :=
  requiredErr "id" ["id"] (modelSchemaJson modelId) (.obj []) (some "Model")

/-- Witness for C8: the model failure of the tests carries a modelName key on
its exposed entry, the raw-schema failure does not. -/
theorem exposed_error_modelName_witness :
    transform defaultSensitiveFields (bodyMeta .one (.model modelId)) (.obj []) =
      .error (mkValidationError defaultSensitiveFields
        (bodyMeta .one (.model modelId)) [modelReqErr]) ∧
    "modelName" ∈
      (exposedErrorJson (redactErr defaultSensitiveFields modelReqErr)).objKeys ∧
    transform defaultSensitiveFields (bodyMeta .one (.rawSchema .objectT)) (.arr []) =
      .error (mkValidationError defaultSensitiveFields
        (bodyMeta .one (.rawSchema .objectT)) [rawSchemaErr]) ∧
    "modelName" ∉
      (exposedErrorJson (redactErr defaultSensitiveFields rawSchemaErr)).objKeys := by
  refine ⟨rfl, ?_, rfl, ?_⟩
  · exact (exposed_error_modelName defaultSensitiveFields
      (bodyMeta .one (.model modelId)) (.obj []) _ rfl).1 modelId rfl
      (redactErr defaultSensitiveFields modelReqErr) (List.mem_singleton_self _)
  · exact (exposed_error_modelName defaultSensitiveFields
      (bodyMeta .one (.rawSchema .objectT)) (.arr []) _ rfl).2 .objectT rfl
      (redactErr defaultSensitiveFields rawSchemaErr) (List.mem_singleton_self _)

/-- Two-level field access on a JSON object value. -/
def jsonField2 (j : Json) (k1 k2 : String) : Option Json :=
  match jsonField j k1 with
  | some j2 => jsonField j2 k2
  | none => none

/-- Counterexample to C9 as stated: password is a string-typed property of
the test model declared Required, yet the schema generated for the parameter
gives it minLength 8 (its explicit MinLength), not minLength 1. -/
theorem required_password_minLength_cex :
    ("password", true, PropType.strTy (some 8)) ∈ modelWithPassword.props.toList ∧
    jsonField2 (paramSchemaJson (bodyMeta .one (.model modelWithPassword)))
        "properties" "password" =
      some (.obj [("minLength", .num 8), ("type", .str "string")]) ∧
    (Json.obj [("minLength", .num 8), ("type", .str "string")]) ≠
      (Json.obj [("minLength", .num 1), ("type", .str "string")]) := by
  refine ⟨List.Mem.tail _ (List.Mem.head _), rfl, ?_⟩
  intro h
  simp at h

/-- A Required property is listed in the required names. -/
theorem mem_requiredNames_of_mem :
    ∀ (ps : PropList) (n : String) (t : PropType),
      (n, true, t) ∈ ps.toList → n ∈ requiredNames ps
  | .nil, n, t, h => by simp [PropList.toList] at h
  | .cons n0 r0 t0 rest, n, t, h => by
      rw [PropList.toList] at h
      rcases List.mem_cons.mp h with h1 | h2
      · simp only [Prod.mk.injEq] at h1
        obtain ⟨hn, hr, ht⟩ := h1
        subst hn
        rw [← hr]
        exact List.Mem.head _
      · have ih := mem_requiredNames_of_mem rest n t h2
        cases r0 <;> simp [requiredNames] <;> [skip; right] <;> exact ih

/-- A declared property appears in the generated properties object with its
generated schema. -/
theorem mem_propsSchemaFields_of_mem :
    ∀ (ps : PropList) (n : String) (r : Bool) (t : PropType),
      (n, r, t) ∈ ps.toList → (n, propTypeSchemaJson r t) ∈ propsSchemaFields ps
  | .nil, n, r, t, h => by simp [PropList.toList] at h
  | .cons n0 r0 t0 rest, n, r, t, h => by
      rw [PropList.toList] at h
      rcases List.mem_cons.mp h with h1 | h2
      · simp only [Prod.mk.injEq] at h1
        obtain ⟨hn, hr, ht⟩ := h1
        subst hn
        rw [← hr, ← ht]
        exact List.Mem.head _
      · exact List.Mem.tail _ (mem_propsSchemaFields_of_mem rest n r t h2)

/-- Claim C9 (amended): every string-typed model property declared Required
with no explicit MinLength is listed in the required array of the generated
schema and is given the constraint minLength 1 (an explicit MinLength n keeps
n instead), and an empty string fails validation of such a required string
field. -/
theorem required_string_gets_minLength_one (m : ModelSpec) (pname : String)
    (hMem : (pname, true, PropType.strTy none) ∈ m.props.toList) :
    pname ∈ requiredNames m.props ∧
    (pname, Json.obj [("minLength", .num 1), ("type", .str "string")]) ∈
      propsSchemaFields m.props ∧
    ∀ mn, validatePropVal mn pname true (.strTy none) (.str "") =
      [minLengthErr 1 pname (.str "") (some mn)] := by
  refine ⟨mem_requiredNames_of_mem m.props pname _ hMem, ?_, fun mn => rfl⟩
  exact mem_propsSchemaFields_of_mem m.props pname true (.strTy none) hMem

/-- Witness for the amended C9: the id property of the test model is required,
gets minLength 1, and rejects the empty string. -/
theorem required_string_gets_minLength_one_witness :
    ("id", true, PropType.strTy none) ∈ modelId.props.toList ∧
    "id" ∈ requiredNames modelId.props ∧
    ("id", Json.obj [("minLength", .num 1), ("type", .str "string")]) ∈
      propsSchemaFields modelId.props ∧
    validatePropVal "Model" "id" true (.strTy none) (.str "") =
      [minLengthErr 1 "id" (.str "") (some "Model")] := by
  have h := required_string_gets_minLength_one modelId "id" (List.Mem.head _)
  exact ⟨List.Mem.head _, h.1, h.2.1, h.2.2 "Model"⟩

/-- Claim C10: a Map-typed parameter takes a plain string-keyed object, its
generated schema being type object with additionalProperties referencing the
model, and a Set-typed parameter takes a plain array, its generated schema
being type array with uniqueItems true; on successful validation the pipe
returns that plain object or array itself. -/
theorem mapSet_plain_json (sensitive : List String) (m : ModelSpec) (pp : String)
    (v : Json) :
    paramSchemaJson ⟨pp, false, .mapOf, .model m⟩ =
      .obj [("additionalProperties", refJson m),
            ("definitions", .obj (collectDefsModel m)), ("type", .str "object")] ∧
    paramSchemaJson ⟨pp, false, .setOf, .model m⟩ =
      .obj [("definitions", .obj (collectDefsModel m)), ("items", refJson m),
            ("type", .str "array"), ("uniqueItems", .bool true)] ∧
    (validateParam ⟨pp, false, .mapOf, .model m⟩ v = [] →
      transform sensitive ⟨pp, false, .mapOf, .model m⟩ v = .ok v) ∧
    (validateParam ⟨pp, false, .setOf, .model m⟩ v = [] →
      transform sensitive ⟨pp, false, .setOf, .model m⟩ v = .ok v) := by
  refine ⟨rfl, rfl, ?_, ?_⟩
  all_goals intro hv
  all_goals unfold transform
  · have hi : inputValue ⟨pp, false, .mapOf, .model m⟩ v = v := rfl
    rw [hi, hv]
  · have hi : inputValue ⟨pp, false, .setOf, .model m⟩ v = v := rfl
    rw [hi, hv]

/-- The valid Map body of the tests. -/
def mapGoodValue : Json := .obj [("key1", .obj [("id", .str "hello")])]

/-- The valid Set body of the tests. -/
def setGoodValue : Json := .arr [.obj [("id", .str "hello")]]

/-- Witness for C10: the valid Map and Set test bodies pass validation and
come back as the same plain object and plain array. -/
theorem mapSet_plain_json_witness :
    validateParam ⟨"request.body", false, .mapOf, .model modelId⟩ mapGoodValue = [] ∧
    transform defaultSensitiveFields ⟨"request.body", false, .mapOf, .model modelId⟩
      mapGoodValue = .ok mapGoodValue ∧
    validateParam ⟨"request.body", false, .setOf, .model modelId⟩ setGoodValue = [] ∧
    transform defaultSensitiveFields ⟨"request.body", false, .setOf, .model modelId⟩
      setGoodValue = .ok setGoodValue := by
  refine ⟨rfl, ?_, rfl, ?_⟩
  · exact (mapSet_plain_json defaultSensitiveFields modelId "request.body"
      mapGoodValue).2.2.1 rfl
  · exact (mapSet_plain_json defaultSensitiveFields modelId "request.body"
      setGoodValue).2.2.2 rfl
